import Mathlib

/-!
Verification development for the video-content-hub frame-analysis pipeline.

The definitions below are a shallow embedding of the TypeScript source:
- `server/services/frameAnalysis/types.ts` (data model),
- `server/services/frameAnalysis/frameAnalyzer.ts` (`saveAnalysis` derivation and
  its sequence of database inserts),
- `server/services/frameAnalysis/agents/eventDetectionAgent.ts` (temporal window),
- `server/services/videoProcessor.ts` (legacy `analyzeFrame` tag transformation),
- the `videoProcessor` revision that owns `extractFrames` retry policy,
  memory-adaptive batching and the module-level `FrameAnalyzer` singleton.

JavaScript numbers are modelled as rationals, `Math.round` as floor of x + 1/2,
database tables as lists of rows, and each `db.insert` as an append that an
environment-supplied oracle may fail.
-/

namespace VCHub

/-- Checks that `pat` occurs at the head of `s` (character list form). -/
def takeMatches : List Char → List Char → Bool
  | [], _ => true
  | _ :: _, [] => false
  | p :: ps, c :: cs => p == c && takeMatches ps cs

/-- Checks that `pat` occurs somewhere in `s` (character list form). -/
def subListAt : List Char → List Char → Bool
  | pat, [] => takeMatches pat []
  | pat, c :: cs => takeMatches pat (c :: cs) || subListAt pat cs

/-- Embedding of JavaScript `s.includes(pat)` for strings. -/
def strIncludes (s pat : String) : Bool := subListAt pat.toList s.toList

/-- Embedding of JavaScript `Math.round` (round half toward positive infinity). -/
def jsRound (q : ℚ) : ℤ := ⌊q + 1 / 2⌋

/-- Bounding box from `types.ts`. -/
structure BoundingBox where
  x1 : ℚ
  y1 : ℚ
  x2 : ℚ
  y2 : ℚ
deriving DecidableEq

/-- Detected object from `types.ts`; the source field `class` is a reserved word
in Lean and is embedded as `cls`. -/
structure DetectedObject where
  cls : String
  confidence : ℚ
  bbox : BoundingBox
deriving DecidableEq

/-- Stage-1 output from `types.ts`. -/
structure ObjectDetectionResult where
  frameNumber : ℕ
  timestamp : ℚ
  objects : List DetectedObject
deriving DecidableEq

/-- Scene attribute bag from `types.ts`. -/
structure SceneAttributes where
  lighting : String
  composition : String
  mood : String
  setting : String
deriving DecidableEq

/-- Stage-2 output from `types.ts`. -/
structure SceneClassification where
  frameNumber : ℕ
  timestamp : ℚ
  scene : String
  confidence : ℚ
  attributes : SceneAttributes
deriving DecidableEq

/-- Stage-3 output from `types.ts`. -/
structure TemporalEvent where
  startFrame : ℤ
  endFrame : ℤ
  startTime : ℚ
  endTime : ℚ
  eventType : String
  confidence : ℚ
  description : String
  involvedObjects : List String
deriving DecidableEq

/-- Action pair inside the narrative context from `types.ts`. -/
structure NarrativeActions where
  primary : String
  secondary : List String
deriving DecidableEq

/-- Stage-4 output from `types.ts`. -/
structure NarrativeContext where
  frameNumber : ℕ
  timestamp : ℚ
  summary : String
  keyElements : List String
  actions : NarrativeActions
  context : String
deriving DecidableEq

/-- Combined result of the four stages, from `types.ts`. -/
structure FrameAnalysis where
  frameNumber : ℕ
  timestamp : ℚ
  objectDetection : ObjectDetectionResult
  sceneClassification : SceneClassification
  events : List TemporalEvent
  narrative : NarrativeContext
deriving DecidableEq

/-- Keyframe metadata block `semanticDescription` built in `saveAnalysis`. -/
structure SemanticDescription where
  summary : String
  keyElements : List String
  mood : String
  composition : String
deriving DecidableEq

/-- Keyframe metadata block `objects` built in `saveAnalysis`. -/
structure ObjectsByKind where
  people : List String
  items : List String
  environment : List String
deriving DecidableEq

/-- Keyframe metadata block `actions` built in `saveAnalysis`. -/
structure ActionsMeta where
  primary : String
  secondary : List String
  movements : List String
deriving DecidableEq

/-- Keyframe metadata block `technical` built in `saveAnalysis`. -/
structure TechnicalMeta where
  lighting : String
  cameraAngle : String
  visualQuality : String
deriving DecidableEq

/-- Unified keyframe metadata record. -/
structure KeyframeMetadata where
  semanticDescription : SemanticDescription
  objects : ObjectsByKind
  actions : ActionsMeta
  technical : TechnicalMeta
deriving DecidableEq

/-- A persisted `keyframes` row. -/
structure KeyframeRow where
  videoId : ℕ
  timestamp : ℚ
  metadata : KeyframeMetadata
deriving DecidableEq

/-- A persisted `tags` row. -/
structure TagRow where
  videoId : ℕ
  name : String
  category : String
  timestamp : ℚ
  confidence : ℤ
  aiGenerated : ℕ
deriving DecidableEq

/-- Embedding of JavaScript `s.toLowerCase()` (character-wise lowercasing). -/
def jsToLowerCase (s : String) : String := String.mk (s.toList.map Char.toLower)

/-- The `person` test used by `saveAnalysis`:
`obj.class.toLowerCase().includes('person')`. -/
def isPersonClass (o : DetectedObject) : Bool := strIncludes (jsToLowerCase o.cls) "person"

/-- The keyframe metadata object built by `FrameAnalyzer.saveAnalysis`
(frameAnalyzer.ts lines 96-122). -/
def keyframeMetadataOf (a : FrameAnalysis) : KeyframeMetadata :=
  { semanticDescription :=
      { summary := a.narrative.summary
        keyElements := a.narrative.keyElements
        mood := a.sceneClassification.attributes.mood
        composition := a.sceneClassification.attributes.composition }
    objects :=
      { people := (a.objectDetection.objects.filter (fun o => isPersonClass o)).map
          (fun o => o.cls)
        items := (a.objectDetection.objects.filter (fun o => !(isPersonClass o))).map
          (fun o => o.cls)
        environment := [a.sceneClassification.scene] }
    actions :=
      { primary := a.narrative.actions.primary
        secondary := a.narrative.actions.secondary
        movements := a.events.map (fun e => e.description) }
    technical :=
      { lighting := a.sceneClassification.attributes.lighting
        cameraAngle := "auto-detected"
        visualQuality := "high" } }

/-- The `keyframes` row inserted by `FrameAnalyzer.saveAnalysis`. -/
def keyframeRowOf (videoId : ℕ) (a : FrameAnalysis) : KeyframeRow :=
  { videoId := videoId, timestamp := a.timestamp, metadata := keyframeMetadataOf a }

/-- One tag row derived from a detected object by `saveAnalysis`
(frameAnalyzer.ts lines 127-135): category is always the literal string
`object` and confidence is `Math.round(obj.confidence * 100)`. -/
def objectTagOf (videoId : ℕ) (ts : ℚ) (o : DetectedObject) : TagRow :=
  { videoId := videoId, name := o.cls, category := "object", timestamp := ts
    confidence := jsRound (o.confidence * 100), aiGenerated := 1 }

/-- One tag row derived from a temporal event by `saveAnalysis`
(frameAnalyzer.ts lines 137-146): timestamp is the event start time. -/
def eventTagOf (videoId : ℕ) (e : TemporalEvent) : TagRow :=
  { videoId := videoId, name := e.eventType, category := "event", timestamp := e.startTime
    confidence := jsRound (e.confidence * 100), aiGenerated := 1 }

/-- All tag rows whose inserts `saveAnalysis` issues for one frame. -/
def saveAnalysisTags (videoId : ℕ) (a : FrameAnalysis) : List TagRow :=
  a.objectDetection.objects.map (objectTagOf videoId a.timestamp)
    ++ a.events.map (eventTagOf videoId)

/-- Database state: the two tables the pipeline writes. -/
structure DB where
  keyframes : List KeyframeRow
  tags : List TagRow
deriving DecidableEq

/-- Effectful run of `FrameAnalyzer.saveAnalysis`. The method first awaits a
single `db.insert(keyframes)`, then issues one independent `db.insert(tags)`
statement per tag and awaits them with `Promise.all` — there is no enclosing
transaction. `keyframeInsertFails` and `tagInsertFails i` are the
environment's failure oracle for the individual statements. The returned
boolean is `true` when the whole method resolved without throwing; either
way the first component is the database state left behind. -/
def saveAnalysis (db : DB) (videoId : ℕ) (a : FrameAnalysis)
    (keyframeInsertFails : Bool) (tagInsertFails : ℕ → Bool) : DB × Bool :=
  if keyframeInsertFails then (db, false)
  else
    let db1 : DB := { db with keyframes := db.keyframes ++ [keyframeRowOf videoId a] }
    let tl := saveAnalysisTags videoId a
    let idx := List.range tl.length
    let persisted := ((idx.zip tl).filter (fun p => !(tagInsertFails p.1))).map
      (fun p => p.2)
    (({ db1 with tags := db1.tags ++ persisted } : DB), idx.all (fun i => !(tagInsertFails i)))

/-- A raw tag object as delivered by the model in the legacy
`videoProcessor.analyzeFrame` path, before normalization. Fields that
JavaScript may find `undefined` (or otherwise falsy-numeric) are optional. -/
structure RawTag where
  name : Option String
  category : Option String
  confidence : Option ℚ
deriving DecidableEq

/-- The valid category whitelist of the legacy transformation. -/
def validCategories : List String := ["person", "object", "action", "scene"]

/-- A normalized legacy tag (videoProcessor.ts, `transformedTags`). -/
structure LegacyTag where
  name : String
  category : String
  confidence : ℚ
deriving DecidableEq

/-- Embedding of the legacy tag normalization in `videoProcessor.analyzeFrame`
(videoProcessor.ts lines 379-386):
`name: String(tag.name || "").toLowerCase()`;
`category: validCategories.includes(String(tag.category)) ? String(tag.category) : 'object'`
where `String(undefined)` is the string `undefined`, never in the whitelist;
`confidence: Math.min(Math.max(Number(tag.confidence) || 90, 0), 100)` where a
missing confidence gives `NaN` and both `NaN` and `0` are falsy, so `|| 90`
replaces them. -/
def transformTag (t : RawTag) : LegacyTag :=
  { name := jsToLowerCase (t.name.getD "")
    category :=
      match t.category with
      | none => "object"
      | some c => if validCategories.contains c then c else "object"
    confidence :=
      let v : ℚ :=
        match t.confidence with
        | none => 90
        | some c => if c = 0 then 90 else c
      min (max v 0) 100 }

/-- One entry of the `EventDetectionAgent` frame buffer
(eventDetectionAgent.ts lines 6-11). -/
structure WindowEntry where
  frameNumber : ℕ
  timestamp : ℚ
  objectDetection : ObjectDetectionResult
  sceneClassification : SceneClassification
deriving DecidableEq

/-- Embedding of `EventDetectionAgent.addFrame` (eventDetectionAgent.ts lines
17-34): push the entry, then `shift()` the oldest when the buffer exceeds 30. -/
def addFrame (frameBuffer : List WindowEntry) (e : WindowEntry) : List WindowEntry :=
  let b := frameBuffer ++ [e]
  if 30 < b.length then b.tail else b

/-- Embedding of `EventDetectionAgent.detectEvents` (eventDetectionAgent.ts
lines 36-77). When the buffer holds fewer than 2 entries it returns the empty
event list without contacting the inference service; otherwise it performs the
external call, whose parsed result the environment supplies as `apiEvents`.
The boolean records whether the external call was made. -/
def detectEvents (frameBuffer : List WindowEntry) (apiEvents : List TemporalEvent) :
    List TemporalEvent × Bool :=
  if frameBuffer.length < 2 then ([], false) else (apiEvents, true)

/-- The buffer state after one video's frames have been appended through the
shared agent (the agent never clears the buffer between videos). -/
def runVideoWindow (buf : List WindowEntry) (entries : List WindowEntry) :
    List WindowEntry :=
  entries.foldl addFrame buf

/-- The state of the module-level `FrameAnalyzer` singleton's event-detection
buffer after a list of videos has been processed in one process: the
`videoProcessor` revision constructs `frameAnalyzer` once at module scope, so
each video's run continues from the buffer the previous run left behind. -/
def analyzerBufferAfterVideos (videos : List (List WindowEntry)) : List WindowEntry :=
  videos.foldl runVideoWindow []

/-- Transient extracted-frame artifact (`ExtractedFrame` in videoProcessor):
the timestamp is the integer parsed from the `frame-N.jpg` filename. -/
structure ExtractedFrame where
  timestamp : ℕ
  path : String
deriving DecidableEq

/-- Per-attempt extraction settings from `attemptExtraction`:
`fps: attempt === 0 ? 2 : 1`,
`quality: Math.max(2, attempt === 0 ? 2 : 3 + attempt)`,
`maxFrames: attempt === 0 ? 600 : Math.max(300, 600 - attempt * 100)`. -/
structure ExtractionSettings where
  fps : ℕ
  quality : ℤ
  maxFrames : ℤ
deriving DecidableEq

/-- The settings chosen for a given attempt number. -/
def attemptSettings (attempt : ℕ) : ExtractionSettings :=
  { fps := if attempt = 0 then 2 else 1
    quality := max 2 (if attempt = 0 then 2 else 3 + (attempt : ℤ))
    maxFrames := if attempt = 0 then 600 else max 300 (600 - (attempt : ℤ) * 100) }

/-- The backoff delay awaited before retry `attempt`:
`Math.min(1000 * Math.pow(2, attempt), 10000)`. -/
def backoffMs (attempt : ℕ) : ℕ := min (1000 * 2 ^ attempt) 10000

/-- What the environment makes of one extraction attempt: either ffmpeg
reports an error, or the decode completes and verification leaves the given
list of valid frames (empty and invalid artifacts already excluded). -/
inductive AttemptOutcome
  | ffmpegError
  | completed (validFrames : List ExtractedFrame)
deriving DecidableEq

/-- Insertion step of the timestamp sort performed on verified frames. -/
def insertByTs (f : ExtractedFrame) : List ExtractedFrame → List ExtractedFrame
  | [] => [f]
  | g :: rest =>
    if f.timestamp ≤ g.timestamp then f :: g :: rest else g :: insertByTs f rest

/-- `frames.sort((a, b) => a.timestamp - b.timestamp)` on the verified frames. -/
def sortByTs (l : List ExtractedFrame) : List ExtractedFrame := l.foldr insertByTs []

/-- The error value thrown when every attempt failed:
`Frame extraction failed after N attempts` carries the exhausted count. -/
structure ExtractionFailure where
  attemptsExhausted : ℕ
deriving DecidableEq

/-- One run of `attemptExtraction` (videoProcessor revision, lines 294-499):
an ffmpeg error rejects; a completed decode whose verification leaves zero
valid frames rejects with `No valid frames extracted`; otherwise the verified
frames are resolved sorted by timestamp. -/
def runAttempt (o : AttemptOutcome) : Except String (List ExtractedFrame) :=
  match o with
  | .ffmpegError => .error "ffmpeg error"
  | .completed valid =>
    if valid.length = 0 then .error "No valid frames extracted"
    else .ok (sortByTs valid)

/-- The retry loop of `extractFrames` (lines 501-527), traced. Arguments:
the per-attempt outcomes, the configured `retryCount`, the current attempt
number, and the remaining attempts. Returns the overall result together with
the list of backoff waits performed (one before every attempt except the
first). Failed attempts sweep partial artifacts and continue. -/
def extractAttemptsT (outcomes : ℕ → AttemptOutcome) (retryCount attempt : ℕ) :
    ℕ → Except ExtractionFailure (List ExtractedFrame) × List ℕ
  | 0 => (.error { attemptsExhausted := retryCount }, [])
  | r + 1 =>
    let waits := if attempt = 0 then ([] : List ℕ) else [backoffMs attempt]
    match runAttempt (outcomes attempt) with
    | .ok fs => (.ok fs, waits)
    | .error _ =>
      let rec1 := extractAttemptsT outcomes retryCount (attempt + 1) r
      (rec1.1, waits ++ rec1.2)

/-- `extractFrames(videoPath, outputDir, retryCount)`: run the attempts from
attempt 0 down. The source default for `retryCount` is 3. -/
def extractFrames (outcomes : ℕ → AttemptOutcome) (retryCount : ℕ) :
    Except ExtractionFailure (List ExtractedFrame) :=
  (extractAttemptsT outcomes retryCount 0 retryCount).1

/-- The `videos` row fields the pipeline mutates. The lifecycle status is the
literal string stored in `processingStatus`. -/
structure VideoRow where
  status : String
  duration : Option ℕ
  totalFrames : Option ℕ
  processedFrames : ℕ
deriving DecidableEq

/-- Sequentialized frame-processing loop of `processVideo`: for each frame, the
environment either supplies the successful four-stage analysis (indexed by the
running `processedFrames` counter, which the source passes as the frame
number) or reports a failure that aborts the run. On success the frame's
keyframe and tag rows are committed, then `processedFrames` is incremented and
the new value persisted (appended to the trace of persisted counter values).
Returns the database, the final counter, the persisted-value trace, and
whether the whole loop completed. -/
def processFrames (videoId : ℕ) (analyses : ℕ → Option FrameAnalysis) :
    List ExtractedFrame → ℕ → DB → List ℕ → DB × ℕ × List ℕ × Bool
  | [], processed, db, trace => (db, processed, trace, true)
  | _fr :: rest, processed, db, trace =>
    match analyses processed with
    | none => (db, processed, trace, false)
    | some a =>
      let db1 := (saveAnalysis db videoId a false (fun _ => false)).1
      processFrames videoId analyses rest (processed + 1) db1 (trace ++ [processed + 1])

/-- Result of one `processVideo` run: the final video row, the database, and
the trace of persisted `processedFrames` values. -/
structure RunResult where
  video : VideoRow
  db : DB
  progressTrace : List ℕ
deriving DecidableEq

/-- Embedding of `processVideo` (videoProcessor revision, lines 66-278).
Pre-validation failure marks the video `failed` and throws. Otherwise the
status becomes `processing`, the probed duration is stored, frames are
extracted with the default 3 attempts; extraction failure throws (the caller
marks the video `failed`). On success `totalFrames` is set to the extracted
frame count before batch processing begins, and the batch loop commits each
frame and advances the persisted counter. The boolean is `true` when the run
completed without throwing. -/
def processVideo (videoId : ℕ) (validInput : Bool) (durationSec : ℕ)
    (outcomes : ℕ → AttemptOutcome) (analyses : ℕ → Option FrameAnalysis)
    (v : VideoRow) (db : DB) : RunResult × Bool :=
  if !validInput then
    ({ video := { v with status := "failed" }, db := db, progressTrace := [] }, false)
  else
    let v2 : VideoRow := { v with status := "processing", duration := some durationSec }
    match extractFrames outcomes 3 with
    | .error _ => ({ video := v2, db := db, progressTrace := [] }, false)
    | .ok frames =>
      let v3 : VideoRow := { v2 with totalFrames := some frames.length }
      let r := processFrames videoId analyses frames 0 db []
      ({ video := { v3 with processedFrames := r.2.1 }, db := r.1
         progressTrace := r.2.2.1 }, r.2.2.2)

/-- The upload route's background continuation (routes.ts lines 99-119):
`processVideo(...).then(set completed).catch(set failed)`. -/
def startProcessing (videoId : ℕ) (validInput : Bool) (durationSec : ℕ)
    (outcomes : ℕ → AttemptOutcome) (analyses : ℕ → Option FrameAnalysis)
    (v : VideoRow) (db : DB) : RunResult :=
  let r := processVideo videoId validInput durationSec outcomes analyses v db
  if r.2 then { r.1 with video := { r.1.video with status := "completed" } }
  else { r.1 with video := { r.1.video with status := "failed" } }

/-- Unit bounding box used by the sample inputs. -/
def bboxUnit : BoundingBox := { x1 := 0, y1 := 0, x2 := 1, y2 := 1 }

/-- Sample scene attribute bag. -/
def attrsSample : SceneAttributes :=
  { lighting := "daylight", composition := "wide", mood := "calm", setting := "outdoor" }

/-- Sample stage-2 output. -/
def sceneSample : SceneClassification :=
  { frameNumber := 0, timestamp := 0, scene := "beach", confidence := 9 / 10
    attributes := attrsSample }

/-- Sample stage-4 output with one key element. -/
def narrativeSample : NarrativeContext :=
  { frameNumber := 0, timestamp := 0, summary := "a person runs", keyElements := ["hero"]
    actions := { primary := "running", secondary := [] }, context := "ctx" }

/-- A detected object whose class contains `person` after lowercasing. -/
def personObject : DetectedObject := { cls := "Person", confidence := 4 / 5, bbox := bboxUnit }

/-- Sample analysis: one detected object, no events. -/
def analysisC1 : FrameAnalysis :=
  { frameNumber := 0, timestamp := 3
    objectDetection := { frameNumber := 0, timestamp := 3, objects := [personObject] }
    sceneClassification := sceneSample, events := [], narrative := narrativeSample }

/-- A temporal event whose upstream confidence exceeds 1. -/
def eventBigConf : TemporalEvent :=
  { startFrame := 0, endFrame := 1, startTime := 2, endTime := 3, eventType := "sprint"
    confidence := 3 / 2, description := "sprinting", involvedObjects := [] }

/-- Sample analysis: no objects, one event with out-of-range confidence. -/
def analysisC2 : FrameAnalysis :=
  { frameNumber := 0, timestamp := 5
    objectDetection := { frameNumber := 0, timestamp := 5, objects := [] }
    sceneClassification := sceneSample, events := [eventBigConf], narrative := narrativeSample }

/-- A temporal event whose upstream confidence is in range. -/
def eventOkConf : TemporalEvent :=
  { startFrame := 0, endFrame := 1, startTime := 2, endTime := 3, eventType := "wave"
    confidence := 1 / 2, description := "waving", involvedObjects := [] }

/-- Sample analysis: a person object, a scene label and a narrative key element,
with no events, exercising every derivation source named by the spec. -/
def analysisC3 : FrameAnalysis :=
  { frameNumber := 0, timestamp := 4
    objectDetection := { frameNumber := 0, timestamp := 4, objects := [personObject] }
    sceneClassification := sceneSample, events := [], narrative := narrativeSample }

/-- Sample analysis with in-range confidences on both derivation sources. -/
def analysisC2ok : FrameAnalysis :=
  { frameNumber := 0, timestamp := 6
    objectDetection := { frameNumber := 0, timestamp := 6, objects := [personObject] }
    sceneClassification := sceneSample, events := [eventOkConf], narrative := narrativeSample }

/-- Filtering a mapped list keeps everything when the test holds on every image. -/
theorem filter_map_all_true {α β : Type} (f : α → β) (p : β → Bool) (l : List α)
    (h : ∀ a : α, p (f a) = true) : (l.map f).filter p = l.map f := by
  induction l with
  | nil => rfl
  | cons a t ih => simp [List.filter_cons, h a, ih]

/-- Filtering a mapped list drops everything when the test fails on every image. -/
theorem filter_map_all_false {α β : Type} (f : α → β) (p : β → Bool) (l : List α)
    (h : ∀ a : α, p (f a) = false) : (l.map f).filter p = [] := by
  induction l with
  | nil => rfl
  | cons a t ih => simp [List.filter_cons, h a, ih]

/-- Filter commutes with map along the composed test. -/
theorem filter_map_comm {α β : Type} (f : α → β) (p : β → Bool) (l : List α) :
    (l.map f).filter p = (l.filter (fun a => p (f a))).map f := by
  induction l with
  | nil => rfl
  | cons a t ih =>
    simp only [List.map_cons, List.filter_cons]
    cases h : p (f a) <;> simp [h, ih]

/-- Scaling a confidence in the unit interval by 100 and rounding lands in 0..100. -/
theorem jsRound_scale_mem {c : ℚ} (h0 : 0 ≤ c) (h1 : c ≤ 1) :
    0 ≤ jsRound (c * 100) ∧ jsRound (c * 100) ≤ 100 := by
  unfold jsRound
  constructor
  · apply Int.le_floor.mpr
    push_cast
    nlinarith
  · have h : ⌊c * 100 + 1 / 2⌋ < 101 := by
      apply Int.floor_lt.mpr
      push_cast
      nlinarith
    omega

/-- Claim C1: `saveAnalysis` is documented (frame-analysis README, database
integration section) to wrap the keyframe and tag writes in one transaction,
but the code issues the keyframe insert and each tag insert as separate
statements with no transaction. Run on a frame whose single tag insert fails
after the keyframe insert succeeded: the method throws (second component
`false`), yet the keyframe row is left visible and no tag row exists — the
claimed all-or-nothing visibility is violated. -/
theorem saveAnalysis_partial_write_visible :
    (saveAnalysis { keyframes := [], tags := [] } 7 analysisC1 false (fun _ => true)).2
        = false ∧
    (saveAnalysis { keyframes := [], tags := [] } 7 analysisC1 false
        (fun _ => true)).1.keyframes = [keyframeRowOf 7 analysisC1] ∧
    (saveAnalysis { keyframes := [], tags := [] } 7 analysisC1 false
        (fun _ => true)).1.tags = [] := by
  refine ⟨rfl, rfl, rfl⟩

/-- Claim C2, counterexample: an event reported upstream with confidence 3/2
produces a stored tag confidence of 150, outside the closed interval 0..100 —
`saveAnalysis` stores `Math.round(confidence * 100)` with no clamping. -/
theorem saveAnalysis_confidence_unclamped_cex :
    (saveAnalysisTags 1 analysisC2).map (fun t => t.confidence) = [150] ∧
    ¬((150 : ℤ) ≤ 100) := by
  constructor
  · simp [saveAnalysisTags, analysisC2, eventTagOf, eventBigConf, jsRound]
    norm_num
  · decide

/-- Claim C2, amended: tags stored by the legacy `analyzeFrame` transformation
always carry a confidence in 0..100, and tags stored by
`FrameAnalyzer.saveAnalysis` carry a confidence in 0..100 whenever the
upstream stage reports confidences inside the unit interval; out-of-range
upstream values are not clamped on that path. -/
theorem tag_confidence_range_amended :
    (∀ t : RawTag, 0 ≤ (transformTag t).confidence ∧ (transformTag t).confidence ≤ 100) ∧
    (∀ (vid : ℕ) (a : FrameAnalysis),
      (∀ o ∈ a.objectDetection.objects, 0 ≤ o.confidence ∧ o.confidence ≤ 1) →
      (∀ e ∈ a.events, 0 ≤ e.confidence ∧ e.confidence ≤ 1) →
      ∀ t ∈ saveAnalysisTags vid a, 0 ≤ t.confidence ∧ t.confidence ≤ 100) := by
  constructor
  · intro t
    unfold transformTag
    constructor
    · exact le_min (le_max_right _ _) (by norm_num)
    · exact min_le_right _ _
  · intro vid a hobj hev t ht
    rcases List.mem_append.mp ht with hmem | hmem
    · rcases List.mem_map.mp hmem with ⟨o, ho, rfl⟩
      exact jsRound_scale_mem (hobj o ho).1 (hobj o ho).2
    · rcases List.mem_map.mp hmem with ⟨e, he, rfl⟩
      exact jsRound_scale_mem (hev e he).1 (hev e he).2

/-- Witness for the amended claim C2 at concrete inputs: a raw tag with
confidence 250 is clamped to 100 by the legacy path, and the tags of a frame
whose object and event confidences are 4/5 and 1/2 all land in 0..100. -/
theorem tag_confidence_range_amended_witness :
    (0 ≤ (transformTag { name := some "x", category := none, confidence := some 250 }).confidence ∧
      (transformTag { name := some "x", category := none, confidence := some 250 }).confidence ≤ 100) ∧
    (0 ≤ (objectTagOf 1 (6 : ℚ) personObject).confidence ∧
      (objectTagOf 1 (6 : ℚ) personObject).confidence ≤ 100) := by
  constructor
  · exact tag_confidence_range_amended.1 _
  · exact tag_confidence_range_amended.2 1 analysisC2ok
      (by intro o ho
          have ho2 : o = personObject := by simpa [analysisC2ok] using ho
          subst ho2
          constructor <;> norm_num [personObject])
      (by intro e he
          have he2 : e = eventOkConf := by simpa [analysisC2ok] using he
          subst he2
          constructor <;> norm_num [eventOkConf])
      (objectTagOf 1 (6 : ℚ) personObject)
      (List.mem_append.mpr (Or.inl (List.mem_map.mpr
        ⟨personObject, by simp [analysisC2ok], rfl⟩)))

/-- Claim C3, counterexample: a committed frame with a detected `Person`
object, a scene label and a narrative key element yields exactly one tag, of
category `object` — no `person` categorization, no `scene` tag and no
`narrative` tag are produced by `saveAnalysis`. -/
theorem saveAnalysis_tags_only_object_event_cex :
    isPersonClass personObject = true ∧
    analysisC3.sceneClassification.scene = "beach" ∧
    analysisC3.narrative.keyElements = ["hero"] ∧
    (saveAnalysisTags 1 analysisC3).map (fun t => t.category) = ["object"] := by
  refine ⟨by decide, rfl, rfl, rfl⟩

/-- Claim C3, amended: `saveAnalysis` derives tags only from detected objects
and temporal events. Every detected object becomes one tag of category
`object` (regardless of whether its class contains `person`), every event
becomes one tag of category `event` whose timestamp is the event's start time
rather than the frame's time, and no `scene`, `narrative` or `person` tags
are created. -/
theorem saveAnalysis_tag_derivation (vid : ℕ) (a : FrameAnalysis) :
    (∀ t ∈ saveAnalysisTags vid a, t.category = "object" ∨ t.category = "event") ∧
    (saveAnalysisTags vid a).filter (fun t => t.category == "object")
      = a.objectDetection.objects.map (objectTagOf vid a.timestamp) ∧
    (saveAnalysisTags vid a).filter (fun t => t.category == "event")
      = a.events.map (eventTagOf vid) ∧
    (∀ e : TemporalEvent, (eventTagOf vid e).timestamp = e.startTime ∧
      (eventTagOf vid e).name = e.eventType) ∧
    (∀ (ts : ℚ) (o : DetectedObject), (objectTagOf vid ts o).category = "object" ∧
      (objectTagOf vid ts o).name = o.cls ∧ (objectTagOf vid ts o).timestamp = ts) ∧
    (saveAnalysisTags vid a).filter (fun t => t.category == "scene") = [] ∧
    (saveAnalysisTags vid a).filter (fun t => t.category == "narrative") = [] ∧
    (saveAnalysisTags vid a).filter (fun t => t.category == "person") = [] := by
  unfold saveAnalysisTags
  refine ⟨?_, ?_, ?_, fun e => ⟨rfl, rfl⟩, fun ts o => ⟨rfl, rfl, rfl⟩, ?_, ?_, ?_⟩
  · intro t ht
    rcases List.mem_append.mp ht with hmem | hmem
    · rcases List.mem_map.mp hmem with ⟨o, _, rfl⟩
      exact Or.inl rfl
    · rcases List.mem_map.mp hmem with ⟨e, _, rfl⟩
      exact Or.inr rfl
  · rw [List.filter_append,
      filter_map_all_true (objectTagOf vid a.timestamp) _ _ (fun o => rfl),
      filter_map_all_false (eventTagOf vid) _ _ (fun e => rfl), List.append_nil]
  · rw [List.filter_append,
      filter_map_all_false (objectTagOf vid a.timestamp) _ _ (fun o => rfl),
      filter_map_all_true (eventTagOf vid) _ _ (fun e => rfl), List.nil_append]
  · rw [List.filter_append,
      filter_map_all_false (objectTagOf vid a.timestamp) _ _ (fun o => rfl),
      filter_map_all_false (eventTagOf vid) _ _ (fun e => rfl), List.nil_append]
  · rw [List.filter_append,
      filter_map_all_false (objectTagOf vid a.timestamp) _ _ (fun o => rfl),
      filter_map_all_false (eventTagOf vid) _ _ (fun e => rfl), List.nil_append]
  · rw [List.filter_append,
      filter_map_all_false (objectTagOf vid a.timestamp) _ _ (fun o => rfl),
      filter_map_all_false (eventTagOf vid) _ _ (fun e => rfl), List.nil_append]

/-- Witness for the amended claim C3 at a concrete committed frame: its one
derived tag has category `object`, and the event-tag timestamp rule holds at
a concrete event whose start time differs from the frame's time. -/
theorem saveAnalysis_tag_derivation_witness :
    ((objectTagOf 1 (4 : ℚ) personObject).category = "object" ∨
      (objectTagOf 1 (4 : ℚ) personObject).category = "event") ∧
    (eventTagOf 1 eventOkConf).timestamp = eventOkConf.startTime := by
  constructor
  · exact (saveAnalysis_tag_derivation 1 analysisC3).1 (objectTagOf 1 (4 : ℚ) personObject)
      (List.mem_append.mpr (Or.inl (List.mem_map.mpr
        ⟨personObject, by simp [analysisC3], rfl⟩)))
  · exact ((saveAnalysis_tag_derivation 1 analysisC3).2.2.2.1 eventOkConf).1

/-- Claim C7: when the temporal window holds fewer than 2 entries, stage 3
returns the empty event list without calling the inference service, so the
keyframe committed for such a frame has an empty `movements` list and the
frame contributes no `event`-category tags. -/
theorem small_window_skips_event_stage (buffer : List WindowEntry)
    (apiEvents : List TemporalEvent) (h : buffer.length < 2) :
    detectEvents buffer apiEvents = ([], false) ∧
    ∀ (vid fn : ℕ) (ts : ℚ) (od : ObjectDetectionResult) (sc : SceneClassification)
      (nar : NarrativeContext),
      (keyframeMetadataOf { frameNumber := fn, timestamp := ts, objectDetection := od
                            sceneClassification := sc
                            events := (detectEvents buffer apiEvents).1
                            narrative := nar }).actions.movements = [] ∧
      (saveAnalysisTags vid { frameNumber := fn, timestamp := ts, objectDetection := od
                              sceneClassification := sc
                              events := (detectEvents buffer apiEvents).1
                              narrative := nar }).filter
        (fun t => t.category == "event") = [] := by
  have hde : detectEvents buffer apiEvents = ([], false) := by
    unfold detectEvents
    simp [h]
  refine ⟨hde, fun vid fn ts od sc nar => ⟨?_, ?_⟩⟩
  · rw [hde]
    rfl
  · rw [hde]
    unfold saveAnalysisTags
    simp only [List.map_nil, List.append_nil]
    exact filter_map_all_false (objectTagOf vid ts) _ _ (fun o => rfl)

/-- Witness for claim C7 at a concrete input: an empty window with a pending
candidate event yields no call, an empty movements list and no event tags. -/
theorem small_window_skips_event_stage_witness :
    detectEvents [] [eventOkConf] = ([], false) ∧
    (keyframeMetadataOf { frameNumber := 0, timestamp := (4 : ℚ)
                          objectDetection := { frameNumber := 0, timestamp := 4
                                               objects := [personObject] }
                          sceneClassification := sceneSample
                          events := (detectEvents [] [eventOkConf]).1
                          narrative := narrativeSample }).actions.movements = [] := by
  have h := small_window_skips_event_stage [] [eventOkConf] (by decide)
  exact ⟨h.1, (h.2 1 0 (4 : ℚ)
    { frameNumber := 0, timestamp := 4, objects := [personObject] }
    sceneSample narrativeSample).1⟩

/-- Claim C9: the committed keyframe's `objects.people` is exactly the list of
detected classes containing `person` after lowercasing and `objects.items` is
the complementary list, and reading the row back from the database after a
successful `saveAnalysis` reproduces that partition. -/
theorem keyframe_objects_partition_roundtrip (vid : ℕ) (a : FrameAnalysis) (db : DB) :
    ∃ kf : KeyframeRow,
      ((saveAnalysis db vid a false (fun _ => false)).1.keyframes).getLast? = some kf ∧
      kf.metadata.objects.people
        = (a.objectDetection.objects.map (fun o => o.cls)).filter
            (fun s => strIncludes (jsToLowerCase s) "person") ∧
      kf.metadata.objects.items
        = (a.objectDetection.objects.map (fun o => o.cls)).filter
            (fun s => !(strIncludes (jsToLowerCase s) "person")) := by
  refine ⟨keyframeRowOf vid a, ?_, ?_, ?_⟩
  · show ((db.keyframes ++ [keyframeRowOf vid a]).getLast?) = some (keyframeRowOf vid a)
    exact List.getLast?_concat _
  · rw [filter_map_comm]
    rfl
  · rw [filter_map_comm]
    rfl

/-- Claim C10: the legacy `analyzeFrame` transformation stores the lowercased
string form of the supplied name (empty when absent), coerces any category
outside the whitelist (or a missing one) to `object` so the stored category is
always in the whitelist, defaults a missing or falsy confidence to 90, and
clamps the stored confidence into 0..100. -/
theorem legacy_tag_normalization (t : RawTag) :
    (transformTag t).name = jsToLowerCase (t.name.getD "") ∧
    validCategories.contains (transformTag t).category = true ∧
    (t.category = none → (transformTag t).category = "object") ∧
    (∀ c : String, t.category = some c → validCategories.contains c = false →
      (transformTag t).category = "object") ∧
    ((t.confidence = none ∨ t.confidence = some 0) → (transformTag t).confidence = 90) ∧
    0 ≤ (transformTag t).confidence ∧ (transformTag t).confidence ≤ 100 := by
  refine ⟨rfl, ?_, ?_, ?_, ?_, ?_, ?_⟩
  · rcases t with ⟨n, cat, conf⟩
    rcases cat with _ | c
    · show validCategories.contains "object" = true
      decide
    · show validCategories.contains
        (if validCategories.contains c = true then c else "object") = true
      by_cases hc : validCategories.contains c = true
      · rw [if_pos hc]
        exact hc
      · rw [if_neg hc]
        decide
  · intro hc
    show (transformTag t).category = "object"
    unfold transformTag
    rw [hc]
  · intro c hc hvc
    have hnc : ¬(validCategories.contains c = true) := by
      rw [hvc]
      decide
    show (transformTag t).category = "object"
    unfold transformTag
    rw [hc]
    show (if validCategories.contains c = true then c else "object") = "object"
    exact if_neg hnc
  · intro hc
    unfold transformTag
    rcases hc with hc | hc <;> rw [hc] <;> norm_num
  · exact le_min (le_max_right _ _) (by norm_num)
  · exact min_le_right _ _

/-- Witness for claim C10 at a concrete raw tag: name `ABC` becomes `abc`, the
unknown category `weird` is coerced to `object`, and the falsy confidence 0 is
replaced by 90. -/
theorem legacy_tag_normalization_witness :
    (transformTag { name := some "ABC", category := some "weird"
                    confidence := some 0 }).name = "abc" ∧
    (transformTag { name := some "ABC", category := some "weird"
                    confidence := some 0 }).category = "object" ∧
    (transformTag { name := some "ABC", category := some "weird"
                    confidence := some 0 }).confidence = 90 := by
  refine ⟨?_, ?_, ?_⟩
  · exact ((legacy_tag_normalization _).1).trans (by decide)
  · exact (legacy_tag_normalization _).2.2.2.1 "weird" rfl (by decide)
  · exact (legacy_tag_normalization _).2.2.2.2.1 (Or.inr rfl)

/-- Empty stage-1 output used by the window samples. -/
def odEmpty : ObjectDetectionResult := { frameNumber := 0, timestamp := 0, objects := [] }

/-- A window entry appended during the first sample video's run. -/
def entryV1 : WindowEntry :=
  { frameNumber := 0, timestamp := 1, objectDetection := odEmpty
    sceneClassification := sceneSample }

/-- The first window entry of the second sample video's run. -/
def entryV2 : WindowEntry :=
  { frameNumber := 0, timestamp := 2, objectDetection := odEmpty
    sceneClassification := sceneSample }

/-- Appending to a window below capacity evicts nothing. -/
theorem addFrame_no_evict (b : List WindowEntry) (e : WindowEntry)
    (h : b.length < 30) : addFrame b e = b ++ [e] := by
  have hlen : ¬(30 < (b ++ [e]).length) := by
    simp only [List.length_append, List.length_cons, List.length_nil]
    omega
  show (if 30 < (b ++ [e]).length then (b ++ [e]).tail else b ++ [e]) = b ++ [e]
  rw [if_neg hlen]

/-- Appending to a window at or below capacity keeps it at or below capacity. -/
theorem addFrame_length_le (b : List WindowEntry) (e : WindowEntry)
    (h : b.length ≤ 30) : (addFrame b e).length ≤ 30 := by
  unfold addFrame
  by_cases h30 : 30 < (b ++ [e]).length
  · simp only [h30, if_true]
    simp only [List.length_tail, List.length_append, List.length_cons, List.length_nil]
    omega
  · simp only [h30, if_false]
    omega

/-- Running a video through a window below joint capacity appends its entries. -/
theorem runVideoWindow_no_evict :
    ∀ (v : List WindowEntry) (b : List WindowEntry), b.length + v.length ≤ 30 →
      runVideoWindow b v = b ++ v := by
  intro v
  induction v with
  | nil => intro b _; simp [runVideoWindow]
  | cons e es ih =>
    intro b h
    simp only [List.length_cons] at h
    unfold runVideoWindow
    simp only [List.foldl_cons]
    rw [addFrame_no_evict b e (by omega)]
    have := ih (b ++ [e]) (by simp; omega)
    unfold runVideoWindow at this
    rw [this]
    simp

/-- The shared-analyzer window never exceeds its capacity of 30. -/
theorem bufferCapAux :
    ∀ (vs : List (List WindowEntry)) (b : List WindowEntry), b.length ≤ 30 →
      (List.foldl runVideoWindow b vs).length ≤ 30 := by
  have hrun : ∀ (v : List WindowEntry) (b : List WindowEntry), b.length ≤ 30 →
      (runVideoWindow b v).length ≤ 30 := by
    intro v
    induction v with
    | nil => intro b hb; simpa [runVideoWindow] using hb
    | cons e es ih =>
      intro b hb
      unfold runVideoWindow
      simp only [List.foldl_cons]
      exact ih (addFrame b e) (addFrame_length_le b e hb)
  intro vs
  induction vs with
  | nil => intro b hb; simpa using hb
  | cons v rest ih =>
    intro b hb
    simp only [List.foldl_cons]
    exact ih (runVideoWindow b v) (hrun v b hb)

/-- Claim C8, counterexample: after processing a first video that appended one
entry, the window consulted by the second video's first event-detection call
still contains that entry — the module-level analyzer is shared and its
buffer is not reset between videos — and the call is not even skipped, since
the carried-over entry brings the window to 2 entries. -/
theorem window_carries_across_videos_cex :
    entryV1 ∈ addFrame (analyzerBufferAfterVideos [[entryV1]]) entryV2 ∧
    (addFrame (analyzerBufferAfterVideos [[entryV1]]) entryV2).length = 2 ∧
    (detectEvents (addFrame (analyzerBufferAfterVideos [[entryV1]]) entryV2)
      [eventOkConf]).2 = true := by
  refine ⟨?_, rfl, rfl⟩
  show entryV1 ∈ [entryV1, entryV2]
  exact List.mem_cons_self _ _

/-- Claim C8, amended: the temporal window lives in a process-wide singleton
analyzer and is carried over between videos — after a first video appended
fewer than 30 entries, the window consulted at the second video's first frame
is exactly the first video's entries followed by the new one; entries leave
the window only through FIFO eviction at capacity 30, which also bounds the
buffer after any sequence of videos. -/
theorem window_shared_across_videos (v1 : List WindowEntry) (e2 : WindowEntry)
    (h : v1.length < 30) :
    addFrame (analyzerBufferAfterVideos [v1]) e2 = v1 ++ [e2] ∧
    (∀ vs : List (List WindowEntry), (analyzerBufferAfterVideos vs).length ≤ 30) := by
  constructor
  · have h1 : analyzerBufferAfterVideos [v1] = v1 := by
      unfold analyzerBufferAfterVideos
      simp only [List.foldl_cons, List.foldl_nil]
      have := runVideoWindow_no_evict v1 [] (by simp; omega)
      simpa using this
    rw [h1]
    exact addFrame_no_evict v1 e2 h
  · intro vs
    exact bufferCapAux vs [] (by simp)

/-- Witness for the amended claim C8: with a single-entry first video, the
second video's first consulted window is that entry followed by the new one. -/
theorem window_shared_across_videos_witness :
    addFrame (analyzerBufferAfterVideos [[entryV1]]) entryV2 = [entryV1, entryV2] := by
  exact (window_shared_across_videos [entryV1] entryV2 (by simp)).1

/-- Failed attempts propagate the configured attempt count into the final
error: the retry loop exhausting `remaining` reports `retryCount`. -/
theorem extractAttemptsT_all_fail (outcomes : ℕ → AttemptOutcome) (n : ℕ) :
    ∀ (r attempt : ℕ),
      (∀ i, attempt ≤ i → i < attempt + r → ∃ msg, runAttempt (outcomes i) = .error msg) →
      (extractAttemptsT outcomes n attempt r).1 = .error { attemptsExhausted := n } := by
  intro r
  induction r with
  | zero => intro attempt _; rfl
  | succ r ih =>
    intro attempt h
    obtain ⟨msg, hmsg⟩ := h attempt le_rfl (by omega)
    simp only [extractAttemptsT, hmsg]
    exact ih (attempt + 1) (fun i h1 h2 => h i (by omega) (by omega))

/-- Claim C4: when verification leaves zero valid frames on every attempt, the
attempt is treated as failed and retried until the retries are exhausted, the
run fails with the extraction error carrying the attempt count, the video's
lifecycle state transitions to `failed`, and no keyframe rows are created. -/
theorem zero_frames_run_fails (outcomes : ℕ → AttemptOutcome)
    (h : ∀ i, i < 3 → outcomes i = AttemptOutcome.completed [])
    (videoId durationSec : ℕ) (analyses : ℕ → Option FrameAnalysis) (v : VideoRow) :
    extractFrames outcomes 3 = Except.error { attemptsExhausted := 3 } ∧
    (startProcessing videoId true durationSec outcomes analyses v
      { keyframes := [], tags := [] }).video.status = "failed" ∧
    (startProcessing videoId true durationSec outcomes analyses v
      { keyframes := [], tags := [] }).db.keyframes = [] := by
  have hfail : extractFrames outcomes 3 = Except.error { attemptsExhausted := 3 } := by
    unfold extractFrames
    apply extractAttemptsT_all_fail
    intro i h1 h2
    rw [h i (by omega)]
    exact ⟨"No valid frames extracted", rfl⟩
  refine ⟨hfail, ?_, ?_⟩ <;>
    simp [startProcessing, processVideo, hfail]

/-- Witness for claim C4 at the concrete environment in which every attempt
completes with zero valid frames. -/
theorem zero_frames_run_fails_witness :
    extractFrames (fun _ => AttemptOutcome.completed []) 3
      = Except.error { attemptsExhausted := 3 } ∧
    (startProcessing 5 true 10 (fun _ => AttemptOutcome.completed [])
      (fun _ => none) { status := "pending", duration := none, totalFrames := none
                        processedFrames := 0 }
      { keyframes := [], tags := [] }).video.status = "failed" := by
  have h := zero_frames_run_fails (fun _ => AttemptOutcome.completed [])
    (fun i _ => rfl) 5 10 (fun _ => none)
    { status := "pending", duration := none, totalFrames := none, processedFrames := 0 }
  exact ⟨h.1, h.2.1⟩

/-- The retry loop consults only the outcomes of the attempts it may run. -/
theorem extractAttemptsT_congr (o1 o2 : ℕ → AttemptOutcome) (n : ℕ) :
    ∀ (r attempt : ℕ), (∀ i, attempt ≤ i → i < attempt + r → o1 i = o2 i) →
      extractAttemptsT o1 n attempt r = extractAttemptsT o2 n attempt r := by
  intro r
  induction r with
  | zero => intro attempt _; rfl
  | succ r ih =>
    intro attempt h
    have h0 : o1 attempt = o2 attempt := h attempt le_rfl (by omega)
    have hrest := ih (attempt + 1) (fun i h1 h2 => h i (by omega) (by omega))
    simp only [extractAttemptsT, h0, hrest]

/-- The final error of the retry loop always carries the configured count. -/
theorem extractAttemptsT_error_count (o : ℕ → AttemptOutcome) (n : ℕ) :
    ∀ (r attempt : ℕ) (e : ExtractionFailure) (ws : List ℕ),
      extractAttemptsT o n attempt r = (Except.error e, ws) → e.attemptsExhausted = n := by
  intro r
  induction r with
  | zero =>
    intro attempt e ws hr
    have he : e = { attemptsExhausted := n } := by
      have := congrArg Prod.fst hr
      simp only [extractAttemptsT] at this
      exact (Except.error.injEq _ _).mp this.symm
    rw [he]
  | succ r ih =>
    intro attempt e ws hr
    rcases hra : runAttempt (o attempt) with msg | fs
    · simp only [extractAttemptsT, hra] at hr
      exact ih (attempt + 1) e _ (by
        obtain ⟨h1, h2⟩ := Prod.mk.injEq .. ▸ hr
        exact Prod.ext h1 rfl)
    · simp only [extractAttemptsT, hra] at hr
      exact absurd (congrArg Prod.fst hr) (by simp)

/-- Claim C5: extraction is attempted at most `retryCount` times (default 3)
— the result depends only on the first `retryCount` attempt outcomes and
exhausting them fails with an error carrying that count; waits between
consecutive attempts follow the capped doubling backoff, concretely 2000ms
then 4000ms when all three default attempts fail; attempt 0 requests 2 fps,
quality value 2 and a 600-frame cap, and every later attempt requests the
lower 1 fps, a quality value of 3 + attempt (growing, i.e. more compression)
and a frame cap below 600 that never increases with the attempt number. -/
theorem extraction_retry_policy :
    (∀ (o1 o2 : ℕ → AttemptOutcome) (n : ℕ), (∀ i, i < n → o1 i = o2 i) →
      extractFrames o1 n = extractFrames o2 n) ∧
    (∀ (o : ℕ → AttemptOutcome) (e : ExtractionFailure),
      extractFrames o 3 = Except.error e → e.attemptsExhausted = 3) ∧
    attemptSettings 0 = { fps := 2, quality := 2, maxFrames := 600 } ∧
    (∀ a : ℕ, 1 ≤ a →
      (attemptSettings a).fps < (attemptSettings 0).fps ∧
      (attemptSettings 0).quality < (attemptSettings a).quality ∧
      (attemptSettings a).quality = 3 + (a : ℤ) ∧
      (attemptSettings a).maxFrames < (attemptSettings 0).maxFrames) ∧
    (∀ a b : ℕ, 1 ≤ a → a < b →
      (attemptSettings a).quality < (attemptSettings b).quality ∧
      (attemptSettings b).maxFrames ≤ (attemptSettings a).maxFrames) ∧
    (∀ a : ℕ, backoffMs a ≤ 10000) ∧
    (∀ a : ℕ, 1000 * 2 ^ (a + 1) ≤ 10000 → backoffMs (a + 1) = 2 * backoffMs a) ∧
    (∀ o : ℕ → AttemptOutcome, (∀ i, i < 3 → o i = AttemptOutcome.ffmpegError) →
      (extractAttemptsT o 3 0 3).2 = [2000, 4000]) := by
  refine ⟨?_, ?_, rfl, ?_, ?_, ?_, ?_, ?_⟩
  · intro o1 o2 n h
    unfold extractFrames
    rw [extractAttemptsT_congr o1 o2 n n 0 (fun i h1 h2 => h i (by omega))]
  · intro o e he
    unfold extractFrames at he
    rcases hsplit : extractAttemptsT o 3 0 3 with ⟨res, ws⟩
    rw [hsplit] at he
    simp only at he
    rw [he] at hsplit
    exact extractAttemptsT_error_count o 3 3 0 e ws hsplit
  · intro a ha
    have ha0 : ¬(a = 0) := by omega
    have ha1 : (1 : ℤ) ≤ (a : ℤ) := by exact_mod_cast ha
    have hq : (2 : ℤ) ⊔ (3 + (a : ℤ)) = 3 + (a : ℤ) := max_eq_right (by omega)
    refine ⟨?_, ?_, ?_, ?_⟩
    · simp [attemptSettings, ha0]
    · simp only [attemptSettings, if_neg ha0]
      norm_num [hq, max_self]
      omega
    · simp only [attemptSettings, if_neg ha0]
      exact hq
    · simp only [attemptSettings, if_neg ha0]
      norm_num [max_lt_iff]
      omega
  · intro a b ha hab
    have ha0 : ¬(a = 0) := by omega
    have hb0 : ¬(b = 0) := by omega
    have hcast : (a : ℤ) < (b : ℤ) := by exact_mod_cast hab
    have ha1 : (1 : ℤ) ≤ (a : ℤ) := by exact_mod_cast ha
    constructor
    · simp only [attemptSettings, if_neg ha0, if_neg hb0]
      rw [max_eq_right (by omega), max_eq_right (by omega)]
      omega
    · simp only [attemptSettings, if_neg ha0, if_neg hb0]
      apply max_le_max le_rfl
      nlinarith
  · intro a
    exact min_le_right _ _
  · intro a h
    have h0 : 1000 * 2 ^ a ≤ 10000 := by
      have : 1000 * 2 ^ a ≤ 1000 * 2 ^ (a + 1) := by
        apply Nat.mul_le_mul_left
        exact Nat.pow_le_pow_right (by omega) (by omega)
      omega
    unfold backoffMs
    rw [min_eq_left h, min_eq_left h0]
    ring
  · intro o h
    have h0 := h 0 (by omega)
    have h1 := h 1 (by omega)
    have h2 := h 2 (by omega)
    simp only [extractAttemptsT, h0, h1, h2, runAttempt]
    norm_num [backoffMs]

/-- Witness for claim C5 at concrete inputs: attempt 1 lowers the sampling
rate, the backoff doubles from attempt 0 to attempt 1, and an environment in
which every attempt has ffmpeg fail produces exactly the waits 2000 and 4000
and an error carrying 3 exhausted attempts. -/
theorem extraction_retry_policy_witness :
    (attemptSettings 1).fps < (attemptSettings 0).fps ∧
    backoffMs 1 = 2 * backoffMs 0 ∧
    (extractAttemptsT (fun _ => AttemptOutcome.ffmpegError) 3 0 3).2 = [2000, 4000] ∧
    (∀ e : ExtractionFailure,
      extractFrames (fun _ => AttemptOutcome.ffmpegError) 3 = Except.error e →
      e.attemptsExhausted = 3) := by
  obtain ⟨h1, h2, h3, h4, h5, h6, h7, h8⟩ := extraction_retry_policy
  exact ⟨(h4 1 le_rfl).1, h7 0 (by norm_num),
    h8 (fun _ => AttemptOutcome.ffmpegError) (fun i _ => rfl),
    fun e he => h2 (fun _ => AttemptOutcome.ffmpegError) e he⟩

/-- Invariant of the frame loop: the counter only grows, by at most the number
of remaining frames, and the persisted trace stays sorted and bounded by the
final counter value. -/
theorem processFrames_inv (vid : ℕ) (analyses : ℕ → Option FrameAnalysis) :
    ∀ (l : List ExtractedFrame) (p : ℕ) (db : DB) (tr : List ℕ),
      List.Pairwise (fun x y => x ≤ y) tr → (∀ x ∈ tr, x ≤ p) →
      p ≤ (processFrames vid analyses l p db tr).2.1 ∧
      (processFrames vid analyses l p db tr).2.1 ≤ p + l.length ∧
      List.Pairwise (fun x y => x ≤ y) (processFrames vid analyses l p db tr).2.2.1 ∧
      (∀ x ∈ (processFrames vid analyses l p db tr).2.2.1,
        x ≤ (processFrames vid analyses l p db tr).2.1) := by
  intro l
  induction l with
  | nil =>
    intro p db tr hp hb
    simp only [processFrames]
    exact ⟨le_rfl, by simp, hp, hb⟩
  | cons fr rest ih =>
    intro p db tr hp hb
    rcases han : analyses p with _ | a
    · simp only [processFrames, han]
      exact ⟨le_rfl, by omega, hp, hb⟩
    · simp only [processFrames, han]
      have htr : List.Pairwise (fun x y => x ≤ y) (tr ++ [p + 1]) := by
        rw [List.pairwise_append]
        refine ⟨hp, List.pairwise_singleton _ _, ?_⟩
        intro x hx y hy
        have hy2 : y = p + 1 := by simpa using hy
        subst hy2
        exact le_trans (hb x hx) (by omega)
      have hbd : ∀ x ∈ tr ++ [p + 1], x ≤ p + 1 := by
        intro x hx
        rcases List.mem_append.mp hx with hm | hm
        · exact le_trans (hb x hm) (by omega)
        · have : x = p + 1 := by simpa using hm
          omega
      obtain ⟨h1, h2, h3, h4⟩ := ih (p + 1)
        ((saveAnalysis db vid a false (fun _ => false)).1) (tr ++ [p + 1]) htr hbd
      refine ⟨by omega, ?_, h3, h4⟩
      simp only [List.length_cons]
      omega

/-- Claim C6: in a run that reaches batch processing, `totalFrames` is set to
the extracted frame count before the loop starts, and the trace of persisted
`processedFrames` values is monotonically non-decreasing with every persisted
value (and the final counter) bounded by `totalFrames`. -/
theorem progress_monotone_bounded (videoId durationSec : ℕ)
    (outcomes : ℕ → AttemptOutcome) (analyses : ℕ → Option FrameAnalysis)
    (v : VideoRow) (db : DB) (frames : List ExtractedFrame)
    (hok : extractFrames outcomes 3 = Except.ok frames) :
    (processVideo videoId true durationSec outcomes analyses v db).1.video.totalFrames
      = some frames.length ∧
    List.Pairwise (fun x y => x ≤ y)
      (processVideo videoId true durationSec outcomes analyses v db).1.progressTrace ∧
    (∀ x ∈ (processVideo videoId true durationSec outcomes analyses v db).1.progressTrace,
      x ≤ frames.length) ∧
    (processVideo videoId true durationSec outcomes analyses
      v db).1.video.processedFrames ≤ frames.length := by
  obtain ⟨h1, h2, h3, h4⟩ := processFrames_inv videoId analyses frames 0 db []
    List.Pairwise.nil (by intro x hx; cases hx)
  have hpv : processVideo videoId true durationSec outcomes analyses v db
      = (⟨⟨"processing", some durationSec, some frames.length,
            (processFrames videoId analyses frames 0 db []).2.1⟩,
          (processFrames videoId analyses frames 0 db []).1,
          (processFrames videoId analyses frames 0 db []).2.2.1⟩,
         (processFrames videoId analyses frames 0 db []).2.2.2) := by
    unfold processVideo
    rw [hok]
    rfl
  rw [hpv]
  refine ⟨rfl, h3, ?_, ?_⟩
  · intro x hx
    exact le_trans (h4 x hx) (by omega)
  · show (processFrames videoId analyses frames 0 db []).2.1 ≤ frames.length
    omega

/-- A verified extracted-frame artifact used by the concrete environments. -/
def frameA : ExtractedFrame := { timestamp := 1, path := "frame-1.jpg" }

/-- A freshly uploaded video row. -/
def vidPending : VideoRow :=
  { status := "pending", duration := none, totalFrames := none, processedFrames := 0 }

/-- An empty database. -/
def dbEmpty : DB := { keyframes := [], tags := [] }

/-- Witness for claim C6 at a concrete run with one extracted frame whose
analysis succeeds: `totalFrames` is 1 and the persisted counter trace is
sorted and bounded by 1. -/
theorem progress_monotone_bounded_witness :
    (processVideo 9 true 10 (fun _ => AttemptOutcome.completed [frameA])
      (fun _ => some analysisC1) vidPending dbEmpty).1.video.totalFrames = some 1 ∧
    List.Pairwise (fun x y => x ≤ y)
      (processVideo 9 true 10 (fun _ => AttemptOutcome.completed [frameA])
        (fun _ => some analysisC1) vidPending dbEmpty).1.progressTrace ∧
    (processVideo 9 true 10 (fun _ => AttemptOutcome.completed [frameA])
      (fun _ => some analysisC1) vidPending dbEmpty).1.video.processedFrames ≤ 1 := by
  have h := progress_monotone_bounded 9 10 (fun _ => AttemptOutcome.completed [frameA])
    (fun _ => some analysisC1) vidPending dbEmpty [frameA] rfl
  exact ⟨h.1, h.2.1, h.2.2.2⟩

end VCHub
